import Mathlib

/-!
Verification of the review-queue engine of `gh_review_queue.py`
(aggregate open pull requests, normalize GraphQL nodes, classify
"needs attention" per viewer, rank the queue).

Modelling conventions:
* ISO-8601 UTC timestamp strings (GitHub `DateTime` values all share the
  `YYYY-MM-DDTHH:MM:SSZ` shape) compare lexicographically exactly as they
  compare chronologically, so timestamps are modelled as `Nat`.
* A Python dict entry can be absent, can hold JSON `null`, or can hold a
  value; where the script distinguishes all three (via `.get` versus
  direct indexing versus truthiness) the entry is modelled by `JF`.
  Where two of the three states are indistinguishable in every observable
  outcome of the script, they are collapsed into `Option` and the
  collapse is noted at the field.
* Scalar leaves that are non-nullable in the GitHub GraphQL schema
  (`number`, `title`, `url`, `createdAt`, `isDraft`, `totalCount`,
  review `createdAt`, label `name`/`color`, `login`) are modelled as
  `Option`: present value or absent key; JSON `null` there is outside the
  modelled input domain.
* An uncaught Python exception (KeyError / TypeError / AttributeError)
  is modelled as `none` in an `Option` result.
-/

/-- State of one optional dict entry in a raw JSON node: the key is
absent, the key holds JSON `null`, or the key holds a value. -/
inductive JF (α : Type) where
  | absent : JF α
  | null : JF α
  | val : α → JF α
deriving Repr, DecidableEq

/-- `author { login }` object (also used for review authors). An object
whose `login` key is absent is the empty dict, which is falsy in Python;
both roads end at the `"ghost"` default, so `login` is an `Option`. -/
structure AuthorObj where
  login : Option String
deriving Repr, DecidableEq

/-- One `labels.nodes` element: `name` and `color` are read by direct
indexing (`l["name"]`, `l["color"]`), so an absent key raises. -/
structure LabelNode where
  name : Option String
  color : Option String
deriving Repr, DecidableEq

/-- `labels(first: 10)` connection. -/
structure LabelsConn where
  nodes : JF (List LabelNode)
deriving Repr, DecidableEq

/-- `comments { totalCount }`. The object itself is read by direct
indexing (`pr["comments"]`), and both an absent key and `null` raise
(`KeyError` / unsubscriptable `None`), so the object is an `Option`. -/
structure CommentsObj where
  totalCount : Option Nat
deriving Repr, DecidableEq

/-- `requestedReviewer { ... on User { login } }`: a team-only request
yields an empty (falsy) dict, an absent or `null` entry is falsy too;
all are dropped by the same truthiness test, hence plain `Option`s. -/
structure ReviewerObj where
  login : Option String
deriving Repr, DecidableEq

/-- One `reviewRequests.nodes` element. -/
structure ReviewRequestNode where
  requestedReviewer : Option ReviewerObj
deriving Repr, DecidableEq

/-- `reviewRequests(first: 10)` connection. -/
structure ReviewRequestsConn where
  nodes : JF (List ReviewRequestNode)
deriving Repr, DecidableEq

/-- One `reviews.nodes` element; `createdAt` is read by direct indexing
(`r["createdAt"]`). -/
structure ReviewNode where
  author : Option AuthorObj
  createdAt : Option Nat
deriving Repr, DecidableEq

/-- `reviews(last: 10) { totalCount nodes ... }` connection. -/
structure ReviewsConn where
  totalCount : Option Nat
  nodes : JF (List ReviewNode)
deriving Repr, DecidableEq

/-- `statusCheckRollup { state }`; consumed via
`last_commit.get("statusCheckRollup") or {}` then `.get("state")`,
so every missing level defaults, never raises. -/
structure RollupObj where
  state : Option String
deriving Repr, DecidableEq

/-- `commit { committedDate statusCheckRollup { state } }`. -/
structure CommitObj where
  committedDate : Option Nat
  statusCheckRollup : Option RollupObj
deriving Repr, DecidableEq

/-- One `commits.nodes` element; `commit` is non-nullable in the schema
and read by direct indexing, modelled plain. -/
structure CommitNode where
  commit : CommitObj
deriving Repr, DecidableEq

/-- `commits(last: 1)` connection. `nodes` is consumed via
`.get("nodes", [])` followed by a truthiness test, so an absent key and
`null` both end as the `{}` last-commit default: collapsed to `Option`. -/
structure CommitsConn where
  nodes : Option (List CommitNode)
deriving Repr, DecidableEq

/-- One raw pull-request node as produced by the GraphQL query.
`author` is consumed via `(pr.get("author") or {})`, so absent and
`null` coincide (collapsed to `Option`); `labels`, `reviewRequests` and
`reviews` distinguish absent from `null`, hence `JF`. `commits` is a
non-nullable connection in the schema, consumed via
`pr.get("commits", {})`: `Option`. -/
structure RawPR where
  number : Option Nat
  title : Option String
  url : Option String
  createdAt : Option Nat
  isDraft : Option Bool
  author : Option AuthorObj
  labels : JF LabelsConn
  comments : Option CommentsObj
  reviewRequests : JF ReviewRequestsConn
  reviews : JF ReviewsConn
  commits : Option CommitsConn
deriving Repr, DecidableEq

/-- One raw repository node: `name` is read by direct indexing but only
inside the per-PR loop; `pullRequests` and its `nodes` are read by
direct indexing and iterated, so absent and `null` both raise
(collapsed to `Option`). -/
structure RawRepo where
  name : Option String
  pullRequests : Option (List RawPR)
deriving Repr, DecidableEq

/-- Normalized label (`{"name": ..., "color": ...}`). -/
structure Label where
  name : String
  color : String
deriving Repr, DecidableEq

/-- Normalized review entry (`{"author": ..., "created_at": ...}`). -/
structure NormReview where
  author : String
  created_at : Nat
deriving Repr, DecidableEq

/-- The canonical Pull Request Record appended to `all_prs`
(lines 171-191 of `gh_review_queue.py`). -/
structure PRRecord where
  repo : String
  number : Nat
  title : String
  url : String
  created_at : Nat
  is_draft : Bool
  author : String
  labels : List Label
  comment_count : Nat
  review_count : Nat
  requested_reviewers : List String
  reviews : List NormReview
  last_commit_date : Option Nat
  ci_state : Option String
deriving Repr, DecidableEq

/-- `(d.get("author") or {}).get("login", "ghost")`: absent or `null`
author, or an author object without a usable login, defaults to the
`"ghost"` sentinel. -/
def authorLogin : Option AuthorObj → String
  | some a => a.login.getD "ghost"
  | none => "ghost"

/-- `pr.get("commits", {}).get("nodes", [])` followed by
`last_commit = commits[0]["commit"] if commits else {}`
(lines 159-160): the last commit object, or the `{}` default when the
connection, its nodes list or the list content is missing. -/
def norm_last_commit (cms : Option CommitsConn) : CommitObj :=
  match cms with
  | none => ⟨none, none⟩
  | some c =>
    match c.nodes.getD [] with
    | [] => ⟨none, none⟩
    | n :: _ => n.commit

/-- The `requested_reviewers` list comprehension (lines 162-166):
entries without a resolvable, non-empty user login are dropped. -/
def norm_requested (rr : JF ReviewRequestsConn) : Option (List String) :=
  match rr with
  | .absent => some []          -- .get("reviewRequests", {}) → {}
  | .null => none               -- None.get raises AttributeError
  | .val conn =>
    match conn.nodes with
    | .absent => some []        -- .get("nodes", []) → []
    | .null => none             -- iterating None raises TypeError
    | .val ns => some (ns.filterMap fun n =>
        match n.requestedReviewer with
        | some r =>
          match r.login with
          | some s => if s = "" then none else some s
          | none => none
        | none => none)

/-- The node list the `reviews` comprehension iterates (line 169):
`pr.get("reviews", {}).get("nodes", [])`. -/
def norm_review_nodes (rv : JF ReviewsConn) : Option (List ReviewNode) :=
  match rv with
  | .absent => some []          -- .get("reviews", {}).get("nodes", []) → []
  | .null => none               -- None.get raises AttributeError
  | .val conn =>
    match conn.nodes with
    | .absent => some []
    | .null => none             -- iterating None raises TypeError
    | .val ns => some ns

/-- One entry of the `reviews` comprehension (line 168). -/
def norm_review (r : ReviewNode) : Option NormReview :=
  r.createdAt.map fun c => ⟨authorLogin r.author, c⟩  -- r["createdAt"] raises when absent

/-- The full `reviews` list comprehension (lines 167-170). -/
def norm_reviews (rv : JF ReviewsConn) : Option (List NormReview) :=
  (norm_review_nodes rv).bind (List.mapM' norm_review)

/-- One entry of the `labels` comprehension (line 181):
`{"name": l["name"], "color": l["color"]}`. -/
def norm_label (l : LabelNode) : Option Label := do
  let name ← l.name             -- l["name"] raises when absent
  let color ← l.color           -- l["color"] raises when absent
  some ⟨name, color⟩

/-- The `labels` comprehension (lines 180-183) over
`pr.get("labels", {}).get("nodes", [])`. -/
def norm_labels (lb : JF LabelsConn) : Option (List Label) :=
  match lb with
  | .absent => some []          -- .get("labels", {}) → {}
  | .null => none               -- None.get raises AttributeError
  | .val conn =>
    match conn.nodes with
    | .absent => some []
    | .null => none             -- iterating None raises TypeError
    | .val ns => ns.mapM' norm_label

/-- `pr["comments"]["totalCount"]` (line 184): raises when `comments`
is absent or null, or when its `totalCount` key is absent. -/
def norm_comment_count (cm : Option CommentsObj) : Option Nat :=
  cm.bind (·.totalCount)

/-- `pr["reviews"]["totalCount"]` (line 185): direct indexing, unlike
the defensive `.get` used for the nodes list two lines above — an
absent `reviews` key raises KeyError, a null one raises TypeError. -/
def norm_review_count (rv : JF ReviewsConn) : Option Nat :=
  match rv with
  | .val conn => conn.totalCount  -- absent totalCount raises KeyError
  | .absent => none               -- pr["reviews"] raises KeyError
  | .null => none                 -- None["totalCount"] raises TypeError

/-- Normalization of one raw PR node inside one repository
(`gh_review_queue.py` lines 159-191). `none` models an uncaught Python
exception. `rname` is `repo["name"]`, indexed inside the loop body.
Steps appear in the source's evaluation order. -/
def normalize_pr (rname : Option String) (pr : RawPR) : Option PRRecord := do
  let last_commit := norm_last_commit pr.commits
  -- rollup = last_commit.get("statusCheckRollup") or {}
  let rollup : RollupObj := last_commit.statusCheckRollup.getD ⟨none⟩
  let requested_reviewers ← norm_requested pr.reviewRequests
  let reviews ← norm_reviews pr.reviews
  -- dict literal (lines 171-190), entries in source order
  let repo ← rname              -- repo["name"]
  let number ← pr.number        -- pr["number"]
  let title ← pr.title          -- pr["title"]
  let url ← pr.url              -- pr["url"]
  let created_at ← pr.createdAt -- pr["createdAt"]
  let is_draft ← pr.isDraft     -- pr["isDraft"]
  let author := authorLogin pr.author
  let labels ← norm_labels pr.labels
  let comment_count ← norm_comment_count pr.comments
  let review_count ← norm_review_count pr.reviews
  some
    { repo := repo, number := number, title := title, url := url,
      created_at := created_at, is_draft := is_draft, author := author,
      labels := labels, comment_count := comment_count,
      review_count := review_count,
      requested_reviewers := requested_reviewers, reviews := reviews,
      last_commit_date := last_commit.committedDate,
      ci_state := rollup.state }

/-- Normalization of one repository node: `repo["pullRequests"]["nodes"]`
is iterated, and `repo["name"]` is only indexed inside the loop body, so
a repository with zero PR nodes never touches `name`. -/
def normalize_repo (repo : RawRepo) : Option (List PRRecord) := do
  let prs ← repo.pullRequests
  prs.mapM (normalize_pr repo.name)

/-- `_needs_attention(pr, viewer)` (lines 293-306): rule 1 pending
request, rule 2 zero reviews, rule 3 a commit newer than the viewer's
latest own review; otherwise `False`. `max` over the viewer's review
timestamps is Python's left fold. -/
def _needs_attention (pr : PRRecord) (viewer : String) : Bool :=
  -- Rule 1: viewer is a pending requested reviewer
  if pr.requested_reviewers.contains viewer then true
  -- Rule 2: no reviews from anyone
  else if pr.review_count = 0 then true
  else
    -- Rule 3: new commits since viewer's last review
    match pr.reviews.filter (fun r => r.author == viewer) with
    | [] => false
    | r :: rs =>
      let last_review := (rs.map (·.created_at)).foldl max r.created_at
      match pr.last_commit_date with
      | none => false             -- `if pr["last_commit_date"] and ...`
      | some c => decide (last_review < c)

/-- The viewer's own reviews on a record
(`[r for r in pr["reviews"] if r["author"] == viewer]`). -/
def viewerReviews (pr : PRRecord) (viewer : String) : List NormReview :=
  pr.reviews.filter (fun r => r.author == viewer)

/-- Latest timestamp among the viewer's own reviews
(`max(r["created_at"] for r in my_reviews)`; `0` on the empty list,
which the script never reaches thanks to the `if my_reviews:` guard). -/
def myLastReview (pr : PRRecord) (viewer : String) : Nat :=
  ((viewerReviews pr viewer).map (·.created_at)).foldl max 0

/-- The `repositories` payload of one page:
`data["data"]["organization"]["repositories"]`. -/
structure ReposPage where
  nodes : List RawRepo
  hasNextPage : Bool
deriving Repr, DecidableEq

/-- One HTTP response of the paginated query, as inspected by the loop
body of `fetch_open_prs`: status code, presence of a GraphQL `errors`
array, and the repositories payload. -/
structure Response where
  status : Nat
  hasErrors : Bool
  repositories : ReposPage
deriving Repr, DecidableEq

/-- Ways one iteration of `fetch_open_prs` aborts the run. Every
constructor is a non-zero process outcome: `sys.exit(1)` for
`serverError` and `graphqlErrors`, an uncaught exception for the rest. -/
inductive Fatal where
  | transport      -- requests.post raised: no response at all
  | serverError    -- status >= 500: diagnostic then sys.exit(1)
  | httpError      -- 4xx: resp.raise_for_status() raised
  | graphqlErrors  -- "errors" in data: diagnostic then sys.exit(1)
  | shapeError     -- KeyError / TypeError while normalizing a node
deriving Repr, DecidableEq

/-- The `while True:` pagination loop of `fetch_open_prs`
(lines 134-196), driven by the finite list of responses the transport
will deliver for the successive cursors; an exhausted list models a
transport failure on the next call. Returns the run outcome together
with the number of fetch calls made. -/
def fetch_open_prs_run : List Response → Except Fatal (List PRRecord) × Nat
  | [] => (Except.error Fatal.transport, 0)
  | r :: rest =>
    if 500 ≤ r.status then (Except.error Fatal.serverError, 1)
    else if 400 ≤ r.status then (Except.error Fatal.httpError, 1)
    else if r.hasErrors then (Except.error Fatal.graphqlErrors, 1)
    else
      match r.repositories.nodes.mapM normalize_repo with
      | none => (Except.error Fatal.shapeError, 1)
      | some pageLists =>
        if r.repositories.hasNextPage then
          let (res, n) := fetch_open_prs_run rest
          (res.map (pageLists.flatten ++ ·), n + 1)
        else (Except.ok pageLists.flatten, 1)

/-- Result component of the pagination loop (`all_prs` or the abort). -/
def fetch_open_prs (pages : List Response) : Except Fatal (List PRRecord) :=
  (fetch_open_prs_run pages).1

/-- Number of fetch calls the loop performs. -/
def fetch_calls (pages : List Response) : Nat :=
  (fetch_open_prs_run pages).2

/-- The records one successful page contributes: normalization of all
PR nodes of all its repositories, in upstream order. -/
def pageItems (r : Response) : List PRRecord :=
  ((r.repositories.nodes.mapM normalize_repo).getD []).flatten

/-- A page the loop traverses without aborting: HTTP success, no
declared errors array, and every node normalizes. -/
def pageOk (r : Response) : Prop :=
  r.status < 400 ∧ r.hasErrors = false ∧
    (r.repositories.nodes.mapM normalize_repo).isSome

instance (r : Response) : Decidable (pageOk r) := by
  unfold pageOk; infer_instance

/-- A classified record: the dict after `main` stores
`pr["needs_attention"]` into it. -/
structure ClassifiedPR where
  pr : PRRecord
  needs_attention : Bool
deriving Repr, DecidableEq

/-- The sort key `(not pr["needs_attention"], pr["created_at"])` of
`main` (line 454), as a pair ordered lexicographically the way Python
orders tuples (`False < True` on booleans). -/
def sortKey (c : ClassifiedPR) : Nat × Nat :=
  ((!c.needs_attention).toNat, c.pr.created_at)

/-- Python tuple `<=` on the sort keys. -/
def keyLe (a b : ClassifiedPR) : Bool :=
  decide ((sortKey a).1 < (sortKey b).1 ∨
    ((sortKey a).1 = (sortKey b).1 ∧ (sortKey a).2 ≤ (sortKey b).2))

/-- The Queue Ranker: `prs.sort(key=lambda pr: (not pr["needs_attention"],
pr["created_at"]))`. CPython's list.sort is a stable mergesort by key,
modelled as stable `mergeSort` under the key's total preorder. -/
def rank (l : List ClassifiedPR) : List ClassifiedPR :=
  l.mergeSort keyLe

/-- The `reviewRequests` shapes the comprehension survives: absent, or
present with non-null nodes. -/
def reqOk : JF ReviewRequestsConn → Prop
  | .absent => True
  | .null => False
  | .val conn =>
    match conn.nodes with
    | .null => False
    | _ => True

/-- The `labels` shapes normalization survives: absent, or present with
non-null nodes each carrying `name` and `color`. -/
def labelsOk : JF LabelsConn → Prop
  | .absent => True
  | .null => False
  | .val conn =>
    match conn.nodes with
    | .absent => True
    | .null => False
    | .val ns => ∀ l ∈ ns, l.name.isSome ∧ l.color.isSome

/-- The review-node shapes the `reviews` comprehension survives. -/
def reviewNodesOk : JF ReviewsConn → Prop
  | .absent => True
  | .null => False
  | .val conn =>
    match conn.nodes with
    | .absent => True
    | .null => False
    | .val ns => ∀ r ∈ ns, r.createdAt.isSome

/-- `pr["reviews"]["totalCount"]` succeeds: the connection is present,
non-null, with its `totalCount` key. -/
def reviewCountOk : JF ReviewsConn → Prop
  | .val conn => conn.totalCount.isSome
  | _ => False

/-- `pr["comments"]["totalCount"]` succeeds. -/
def commentsOk : Option CommentsObj → Prop
  | some c => c.totalCount.isSome
  | none => False

/-- The exact domain on which normalizing one node does not raise:
every directly-indexed field present, and no null connection or null
nodes list among `labels`, `reviewRequests`, `reviews`. -/
def shapeOk (rname : Option String) (pr : RawPR) : Prop :=
  rname.isSome ∧ pr.number.isSome ∧ pr.title.isSome ∧ pr.url.isSome ∧
    pr.createdAt.isSome ∧ pr.isDraft.isSome ∧ commentsOk pr.comments ∧
    labelsOk pr.labels ∧ reqOk pr.reviewRequests ∧
    reviewNodesOk pr.reviews ∧ reviewCountOk pr.reviews

/-- A raw node with every optional sub-object of the normalizer's
contract absent (author, labels, reviews, requested reviewers, latest
commit, CI rollup) and every other field present. -/
def allOptionalAbsentNode : RawPR :=
  ⟨some 1, some "t", some "u", some 0, some false, none, .absent,
    some ⟨some 0⟩, .absent, .absent, none⟩

/-- A raw node whose repository-identity fields (number, URL) are
present — as is everything the script indexes directly — but whose
`labels` connection holds JSON null. -/
def nullLabelsNode : RawPR :=
  ⟨some 1, some "t", some "u", some 0, some false, none, .null,
    some ⟨some 0⟩, .absent, .val ⟨some 0, .absent⟩, none⟩

/-- Two classified records with the same attention flag and the same
creation timestamp, distinct PR numbers: stability test data. -/
def tiedA : ClassifiedPR :=
  ⟨⟨"r", 1, "t", "u", 5, false, "alice", [], 0, 0, [], [], none, none⟩, true⟩

/-- Companion to `tiedA`, identical sort key. -/
def tiedB : ClassifiedPR :=
  ⟨⟨"r", 2, "t", "u", 5, false, "alice", [], 0, 0, [], [], none, none⟩, true⟩

/-- A healthy single page of an organization with zero repositories. -/
def emptyOrgPage : Response := ⟨200, false, ⟨[], false⟩⟩

/-- A healthy-looking response that carries a GraphQL errors array. -/
def errorPage : Response := ⟨200, true, ⟨[], false⟩⟩

/-- `keyLe` is transitive: lexicographic order on `Nat` pairs. -/
theorem keyLe_trans : ∀ a b c : ClassifiedPR,
    keyLe a b → keyLe b c → keyLe a c := by
  intro a b c hab hbc
  simp only [keyLe, decide_eq_true_eq] at hab hbc ⊢
  omega

/-- `keyLe` is total. -/
theorem keyLe_total : ∀ a b : ClassifiedPR, keyLe a b || keyLe b a := by
  intro a b
  simp only [keyLe, Bool.or_eq_true, decide_eq_true_eq]
  omega

/-- `foldl max` over `Nat` ignores a `0` seed once the list is entered
through its head. -/
theorem foldl_max_zero_cons (a : Nat) (l : List Nat) :
    (a :: l).foldl max 0 = l.foldl max a := by
  simp [List.foldl, Nat.zero_max]

/-- C2: a viewer listed among the requested reviewers always needs to
attend to the record, whatever its review history. -/
theorem needs_attention_of_requested (pr : PRRecord) (viewer : String)
    (h : pr.requested_reviewers.contains viewer = true) :
    _needs_attention pr viewer = true := by
  unfold _needs_attention
  rw [h]
  simp

/-- Witness for `needs_attention_of_requested`. -/
theorem needs_attention_of_requested_witness :
    (["carol"] : List String).contains "carol" = true ∧
      _needs_attention
        ⟨"r", 1, "t", "u", 5, false, "alice", [], 0, 7, ["carol"],
          [⟨"carol", 9⟩], some 3, none⟩ "carol" = true := by
  refine ⟨by decide, needs_attention_of_requested _ "carol" (by decide)⟩

/-- C3: a record with zero total reviews always needs attention, whether
or not the viewer is a requested reviewer. -/
theorem needs_attention_of_no_reviews (pr : PRRecord) (viewer : String)
    (h : pr.review_count = 0) :
    _needs_attention pr viewer = true := by
  unfold _needs_attention
  cases hreq : pr.requested_reviewers.contains viewer with
  | true => simp
  | false => simp [h]

/-- Witness for `needs_attention_of_no_reviews`: viewer not requested. -/
theorem needs_attention_of_no_reviews_witness :
    (PRRecord.review_count
        ⟨"r", 2, "t", "u", 5, false, "alice", [], 0, 0, [], [], none, none⟩) = 0 ∧
      _needs_attention
        ⟨"r", 2, "t", "u", 5, false, "alice", [], 0, 0, [], [], none, none⟩
        "carol" = true := by
  exact ⟨rfl, needs_attention_of_no_reviews _ "carol" rfl⟩

/-- C1: with the viewer not requested, a positive review count and at
least one review authored by the viewer, attention is needed exactly
when the latest commit is strictly newer than the viewer's latest own
review; a commit at or before it yields `false`. -/
theorem needs_attention_rule_three (pr : PRRecord) (viewer : String)
    (c : Nat)
    (hreq : pr.requested_reviewers.contains viewer = false)
    (hcount : 0 < pr.review_count)
    (hmine : viewerReviews pr viewer ≠ [])
    (hcommit : pr.last_commit_date = some c) :
    (myLastReview pr viewer < c → _needs_attention pr viewer = true) ∧
      (c ≤ myLastReview pr viewer → _needs_attention pr viewer = false) := by
  unfold _needs_attention
  rw [hreq]
  simp only [Bool.false_eq_true, if_false]
  rw [if_neg (Nat.pos_iff_ne_zero.mp hcount)]
  unfold viewerReviews at hmine
  unfold myLastReview viewerReviews
  cases hfil : pr.reviews.filter (fun r => r.author == viewer) with
  | nil => exact absurd hfil hmine
  | cons r rs =>
    rw [hcommit]
    simp only [List.map_cons, foldl_max_zero_cons]
    constructor
    · intro hlt; simpa using hlt
    · intro hle
      simp only [decide_eq_false_iff_not]
      omega

/-- Witness for `needs_attention_rule_three`: viewer "carol" reviewed at
times 3 and 6, latest commit at 8 > 6, so attention is needed. -/
theorem needs_attention_rule_three_witness :
    (PRRecord.requested_reviewers
        ⟨"r", 3, "t", "u", 5, false, "alice", [], 0, 2, [],
          [⟨"carol", 3⟩, ⟨"carol", 6⟩], some 8, none⟩).contains "carol"
        = false ∧
      0 < (2 : Nat) ∧
      viewerReviews
        ⟨"r", 3, "t", "u", 5, false, "alice", [], 0, 2, [],
          [⟨"carol", 3⟩, ⟨"carol", 6⟩], some 8, none⟩ "carol" ≠ [] ∧
      _needs_attention
        ⟨"r", 3, "t", "u", 5, false, "alice", [], 0, 2, [],
          [⟨"carol", 3⟩, ⟨"carol", 6⟩], some 8, none⟩ "carol" = true := by
  refine ⟨by decide, by decide, by decide, ?_⟩
  exact (needs_attention_rule_three _ "carol" 8 (by decide) (by decide)
    (by decide) rfl).1 (by decide)

/-- C10: rule 3 cannot fire without a latest-commit timestamp: a record
with no commit date, the viewer not requested and a positive review
count is classified `false` even when the viewer reviewed it before. -/
theorem needs_attention_no_commit_date (pr : PRRecord) (viewer : String)
    (hdate : pr.last_commit_date = none)
    (hreq : pr.requested_reviewers.contains viewer = false)
    (hcount : 0 < pr.review_count) :
    _needs_attention pr viewer = false := by
  unfold _needs_attention
  rw [hreq]
  simp only [Bool.false_eq_true, if_false]
  rw [if_neg (Nat.pos_iff_ne_zero.mp hcount)]
  cases pr.reviews.filter (fun r => r.author == viewer) with
  | nil => rfl
  | cons r rs => rw [hdate]

/-- Witness for `needs_attention_no_commit_date`: the viewer reviewed
the record, but there is no commit timestamp. -/
theorem needs_attention_no_commit_date_witness :
    (PRRecord.last_commit_date
        ⟨"r", 4, "t", "u", 5, false, "alice", [], 0, 1, [],
          [⟨"carol", 3⟩], none, none⟩) = none ∧
      _needs_attention
        ⟨"r", 4, "t", "u", 5, false, "alice", [], 0, 1, [],
          [⟨"carol", 3⟩], none, none⟩ "carol" = false := by
  exact ⟨rfl,
    needs_attention_no_commit_date _ "carol" rfl (by decide) (by decide)⟩

/-- C4: ranking puts every attention-needing record before every other
record, and within each of the two groups creation timestamps are
non-decreasing. -/
theorem rank_ordering (l : List ClassifiedPR) :
    (rank l).Pairwise (fun a b =>
      (a.needs_attention = false → b.needs_attention = false) ∧
      (a.needs_attention = b.needs_attention →
        a.pr.created_at ≤ b.pr.created_at)) := by
  have h := List.sorted_mergeSort keyLe_trans keyLe_total l
  refine h.imp ?_
  intro a b hab
  revert hab
  simp only [keyLe, sortKey, decide_eq_true_eq]
  cases ha : a.needs_attention <;> cases hb : b.needs_attention <;> simp

/-- C5: the ranking sort is stable: two records with identical attention
flag and identical creation timestamp keep their relative input order. -/
theorem rank_stable (l : List ClassifiedPR) (a b : ClassifiedPR)
    (hflag : a.needs_attention = b.needs_attention)
    (hts : a.pr.created_at = b.pr.created_at)
    (hsub : List.Sublist [a, b] l) :
    List.Sublist [a, b] (rank l) := by
  apply List.pair_sublist_mergeSort keyLe_trans keyLe_total _ hsub
  simp [keyLe, sortKey, hflag, hts]

/-- Witness for `rank_stable`: two records with tied keys stay in input
order through the ranker. -/
theorem rank_stable_witness :
    tiedA.needs_attention = tiedB.needs_attention ∧
      tiedA.pr.created_at = tiedB.pr.created_at ∧
      List.Sublist [tiedA, tiedB] [tiedA, tiedB] ∧
      List.Sublist [tiedA, tiedB] (rank [tiedA, tiedB]) :=
  ⟨rfl, rfl, List.Sublist.refl _,
    rank_stable [tiedA, tiedB] tiedA tiedB rfl rfl (List.Sublist.refl _)⟩


/-- One loop iteration on a successful page: its records are the
flattened normalization of its repositories. -/
theorem pageItems_of_mapM (r : Response) (pl : List (List PRRecord))
    (hpl : r.repositories.nodes.mapM normalize_repo = some pl) :
    pageItems r = pl.flatten := by
  unfold pageItems
  rw [hpl]
  rfl

/-- Loop step on a successful page announcing a further page: recurse
past it, prepending its records and counting one more fetch call. -/
theorem fetch_run_cons_ok (r : Response) (rest : List Response)
    (pl : List (List PRRecord))
    (h1 : r.status < 400) (h2 : r.hasErrors = false)
    (hpl : r.repositories.nodes.mapM normalize_repo = some pl)
    (hn : r.repositories.hasNextPage = true) :
    fetch_open_prs_run (r :: rest) =
      ((fetch_open_prs_run rest).1.map (pl.flatten ++ ·),
        (fetch_open_prs_run rest).2 + 1) := by
  conv_lhs => rw [fetch_open_prs_run]
  rw [if_neg (by omega), if_neg (by omega), if_neg (by simp [h2])]
  simp only [hpl]
  rw [if_pos hn]

/-- Loop step on a successful final page: the loop stops after this
single fetch call and returns its records. -/
theorem fetch_run_last (r : Response) (rest : List Response)
    (pl : List (List PRRecord))
    (h1 : r.status < 400) (h2 : r.hasErrors = false)
    (hpl : r.repositories.nodes.mapM normalize_repo = some pl)
    (hn : r.repositories.hasNextPage = false) :
    fetch_open_prs_run (r :: rest) = (Except.ok pl.flatten, 1) := by
  unfold fetch_open_prs_run
  rw [if_neg (by omega), if_neg (by omega), if_neg (by simp [h2])]
  simp only [hpl]
  rw [if_neg (by simp [hn])]

/-- Loop step on a page that declares a GraphQL errors array: the loop
exits through `sys.exit(1)` after this fetch call. -/
theorem fetch_run_error_page (r : Response) (rest : List Response)
    (h1 : r.status < 400) (hbad : r.hasErrors = true) :
    fetch_open_prs_run (r :: rest) = (Except.error Fatal.graphqlErrors, 1) := by
  unfold fetch_open_prs_run
  rw [if_neg (by omega), if_neg (by omega), if_pos hbad]

/-- C6: over a finite cursor chain whose pages all succeed, where every
page but the last announces a next page and the last does not, the
pagination loop terminates, makes exactly one fetch call per page, and
returns the concatenation of every page's normalized records in
upstream order. -/
theorem fetch_walks_all_pages (body : List Response) (lastp : Response)
    (hok : ∀ r ∈ body ++ [lastp], pageOk r)
    (hnext : ∀ r ∈ body, r.repositories.hasNextPage = true)
    (hlast : lastp.repositories.hasNextPage = false) :
    fetch_open_prs_run (body ++ [lastp]) =
      (Except.ok ((body ++ [lastp]).map pageItems).flatten,
        (body ++ [lastp]).length) := by
  induction body with
  | nil =>
    obtain ⟨h1, h2, h3⟩ := hok lastp (by simp)
    obtain ⟨pl, hpl⟩ := Option.isSome_iff_exists.mp h3
    rw [List.nil_append, fetch_run_last lastp [] pl h1 h2 hpl hlast]
    simp [pageItems_of_mapM lastp pl hpl]
  | cons r body ih =>
    obtain ⟨h1, h2, h3⟩ := hok r (by simp)
    obtain ⟨pl, hpl⟩ := Option.isSome_iff_exists.mp h3
    have hn : r.repositories.hasNextPage = true := hnext r (by simp)
    have ih' := ih (fun x hx => hok x (by simp at hx ⊢; tauto))
      (fun x hx => hnext x (by simp [hx]))
    rw [List.cons_append, fetch_run_cons_ok r (body ++ [lastp]) pl h1 h2 hpl hn,
      ih']
    simp [pageItems_of_mapM r pl hpl]
    rfl

/-- Witness for `fetch_walks_all_pages`: a single page listing an
organization with zero repositories yields the empty record set after
one fetch call, not an error. -/
theorem fetch_walks_all_pages_witness :
    (∀ r ∈ ([] : List Response) ++ [emptyOrgPage], pageOk r) ∧
      emptyOrgPage.repositories.hasNextPage = false ∧
      fetch_open_prs_run ([] ++ [emptyOrgPage]) = (Except.ok [], 1) := by
  refine ⟨by decide, rfl, ?_⟩
  rw [fetch_walks_all_pages [] emptyOrgPage (by decide) (by decide) rfl]
  rfl

/-- C9: when the loop reaches a page whose response declares a GraphQL
errors array alongside otherwise-valid data, the run aborts through
`sys.exit(1)` and produces no record set at all. -/
theorem fetch_aborts_on_errors (body : List Response) (bad : Response)
    (rest : List Response)
    (hok : ∀ r ∈ body, pageOk r ∧ r.repositories.hasNextPage = true)
    (hstatus : bad.status < 400)
    (hbad : bad.hasErrors = true) :
    fetch_open_prs (body ++ bad :: rest) =
      Except.error Fatal.graphqlErrors := by
  induction body with
  | nil =>
    unfold fetch_open_prs
    rw [List.nil_append, fetch_run_error_page bad rest hstatus hbad]
  | cons r body ih =>
    obtain ⟨⟨h1, h2, h3⟩, hn⟩ := hok r (by simp)
    obtain ⟨pl, hpl⟩ := Option.isSome_iff_exists.mp h3
    have ih' := ih (fun x hx => hok x (by simp [hx]))
    unfold fetch_open_prs at ih' ⊢
    rw [List.cons_append, fetch_run_cons_ok r (body ++ bad :: rest) pl h1 h2 hpl hn]
    simp [ih']
    rfl

/-- Witness for `fetch_aborts_on_errors`: one page with a declared
errors array aborts the run. -/
theorem fetch_aborts_on_errors_witness :
    errorPage.status < 400 ∧ errorPage.hasErrors = true ∧
      fetch_open_prs ([] ++ errorPage :: []) =
        Except.error Fatal.graphqlErrors :=
  ⟨by decide, rfl,
    fetch_aborts_on_errors [] errorPage [] (by decide) (by decide) rfl⟩

/-- Sequencing `Option`-valued normalization over a list (a Python list
comprehension) succeeds exactly when every element does. -/
theorem isSome_mapM_option {α β : Type} (f : α → Option β) (l : List α) :
    (l.mapM' f).isSome ↔ ∀ x ∈ l, (f x).isSome := by
  induction l with
  | nil => simp
  | cons a l ih =>
    cases hfa : f a with
    | none => simp [hfa]
    | some b =>
      cases hml : l.mapM' f with
      | none => simp [hfa, hml, ← ih]
      | some bs => simp [hfa, hml, ← ih]

/-- The requested-reviewers comprehension raises exactly on a null
connection or null nodes list. -/
theorem isSome_norm_requested (rr : JF ReviewRequestsConn) :
    (norm_requested rr).isSome ↔ reqOk rr := by
  cases rr with
  | absent => simp [norm_requested, reqOk]
  | null => simp [norm_requested, reqOk]
  | val conn => cases h : conn.nodes <;> simp [norm_requested, reqOk, h]

/-- One label normalizes exactly when `name` and `color` are present. -/
theorem isSome_norm_label (l : LabelNode) :
    (norm_label l).isSome ↔ l.name.isSome ∧ l.color.isSome := by
  cases hn : l.name <;> cases hc : l.color <;> simp [norm_label, hn, hc]

/-- The labels comprehension raises exactly on a null connection, a
null nodes list, or an element missing `name` or `color`. -/
theorem isSome_norm_labels (lb : JF LabelsConn) :
    (norm_labels lb).isSome ↔ labelsOk lb := by
  cases lb with
  | absent => simp [norm_labels, labelsOk]
  | null => simp [norm_labels, labelsOk]
  | val conn =>
    cases h : conn.nodes with
    | absent => simp [norm_labels, labelsOk, h]
    | null => simp [norm_labels, labelsOk, h]
    | val ns =>
      simp [norm_labels, labelsOk, h, isSome_mapM_option, isSome_norm_label]

/-- One review entry normalizes exactly when `createdAt` is present. -/
theorem isSome_norm_review (r : ReviewNode) :
    (norm_review r).isSome ↔ r.createdAt.isSome := by
  cases hc : r.createdAt <;> simp [norm_review, hc]

/-- The reviews comprehension raises exactly on a null connection, a
null nodes list, or an element missing `createdAt`. -/
theorem isSome_norm_reviews (rv : JF ReviewsConn) :
    (norm_reviews rv).isSome ↔ reviewNodesOk rv := by
  cases rv with
  | absent => simp [norm_reviews, norm_review_nodes, reviewNodesOk]
  | null => simp [norm_reviews, norm_review_nodes, reviewNodesOk]
  | val conn =>
    cases h : conn.nodes with
    | absent => simp [norm_reviews, norm_review_nodes, reviewNodesOk, h]
    | null => simp [norm_reviews, norm_review_nodes, reviewNodesOk, h]
    | val ns =>
      simp [norm_reviews, norm_review_nodes, reviewNodesOk, h,
        isSome_mapM_option, isSome_norm_review]

/-- `pr["comments"]["totalCount"]` succeeds exactly on a present
comments object with its count. -/
theorem isSome_norm_comment_count (cm : Option CommentsObj) :
    (norm_comment_count cm).isSome ↔ commentsOk cm := by
  cases cm <;> simp [norm_comment_count, commentsOk]

/-- `pr["reviews"]["totalCount"]` succeeds exactly on a present
(non-null) reviews connection with its count. -/
theorem isSome_norm_review_count (rv : JF ReviewsConn) :
    (norm_review_count rv).isSome ↔ reviewCountOk rv := by
  cases rv <;> simp [norm_review_count, reviewCountOk]

/-- C8 amended: normalizing one node succeeds exactly on `shapeOk`
inputs — every directly-indexed field present and no null connection or
null nodes list; all other absences are defaulted, never fatal. -/
theorem normalize_pr_isSome_iff_shapeOk (rname : Option String) (pr : RawPR) :
    (normalize_pr rname pr).isSome ↔ shapeOk rname pr := by
  unfold shapeOk
  rw [← isSome_norm_requested, ← isSome_norm_labels, ← isSome_norm_reviews,
    ← isSome_norm_comment_count, ← isSome_norm_review_count]
  unfold normalize_pr
  rcases hA : norm_requested pr.reviewRequests with _ | A
  · simp only [Option.bind_eq_bind, Option.none_bind, Option.isSome_none,
      Bool.false_eq_true, false_iff]
    exact fun h => h.2.2.2.2.2.2.2.2.1
  rcases hB : norm_reviews pr.reviews with _ | B
  · simp only [Option.bind_eq_bind, Option.some_bind, Option.none_bind,
      Option.isSome_none, Option.isSome_some, Bool.false_eq_true, false_iff]
    exact fun h => h.2.2.2.2.2.2.2.2.2.1
  rcases hC : rname with _ | rn
  · simp only [Option.bind_eq_bind, Option.some_bind, Option.none_bind,
      Option.isSome_none, Option.isSome_some, Bool.false_eq_true, false_iff]
    exact fun h => h.1
  rcases hD : pr.number with _ | num
  · simp only [Option.bind_eq_bind, Option.some_bind, Option.none_bind,
      Option.isSome_none, Option.isSome_some, Bool.false_eq_true, false_iff]
    exact fun h => h.2.1
  rcases hE : pr.title with _ | t
  · simp only [Option.bind_eq_bind, Option.some_bind, Option.none_bind,
      Option.isSome_none, Option.isSome_some, Bool.false_eq_true, false_iff]
    exact fun h => h.2.2.1
  rcases hF : pr.url with _ | u
  · simp only [Option.bind_eq_bind, Option.some_bind, Option.none_bind,
      Option.isSome_none, Option.isSome_some, Bool.false_eq_true, false_iff]
    exact fun h => h.2.2.2.1
  rcases hG : pr.createdAt with _ | cr
  · simp only [Option.bind_eq_bind, Option.some_bind, Option.none_bind,
      Option.isSome_none, Option.isSome_some, Bool.false_eq_true, false_iff]
    exact fun h => h.2.2.2.2.1
  rcases hH : pr.isDraft with _ | d
  · simp only [Option.bind_eq_bind, Option.some_bind, Option.none_bind,
      Option.isSome_none, Option.isSome_some, Bool.false_eq_true, false_iff]
    exact fun h => h.2.2.2.2.2.1
  rcases hI : norm_labels pr.labels with _ | I
  · simp only [Option.bind_eq_bind, Option.some_bind, Option.none_bind,
      Option.isSome_none, Option.isSome_some, Bool.false_eq_true, false_iff]
    exact fun h => h.2.2.2.2.2.2.2.1
  rcases hJ : norm_comment_count pr.comments with _ | J
  · simp only [Option.bind_eq_bind, Option.some_bind, Option.none_bind,
      Option.isSome_none, Option.isSome_some, Bool.false_eq_true, false_iff]
    exact fun h => h.2.2.2.2.2.2.1
  rcases hK : norm_review_count pr.reviews with _ | K
  · simp only [Option.bind_eq_bind, Option.some_bind, Option.none_bind,
      Option.isSome_none, Option.isSome_some, Bool.false_eq_true, false_iff]
    exact fun h => h.2.2.2.2.2.2.2.2.2.2
  simp only [Option.bind_eq_bind, Option.some_bind, Option.isSome_some,
    true_iff]
  exact ⟨trivial, trivial, trivial, trivial, trivial, trivial, trivial,
    trivial, trivial, trivial, trivial⟩

/-- C7 counterexample: the raw node with author, labels, reviews,
requested reviewers, latest commit and CI rollup all absent (and every
other field present) does not normalize to the defaulted record —
`pr["reviews"]["totalCount"]` raises a KeyError. -/
theorem normalize_all_optional_absent_raises :
    normalize_pr (some "r") allOptionalAbsentNode = none := rfl

/-- C7 amended: with the reviews connection present (carrying its
`totalCount`) and every other optional sub-object absent, normalization
succeeds and fills the documented defaults: author `"ghost"`, empty
label set, unknown CI state, empty requested-reviewer set. -/
theorem normalize_defaults_when_optionals_absent (rn t u : String)
    (num cr : Nat) (d : Bool) (cc n : Nat) :
    normalize_pr (some rn)
      ⟨some num, some t, some u, some cr, some d, none, .absent,
        some ⟨some cc⟩, .absent, .val ⟨some n, .absent⟩, none⟩ =
      some ⟨rn, num, t, u, cr, d, "ghost", [], cc, n, [], [], none, none⟩ :=
  rfl

/-- C8 counterexample: a node whose required identity fields (number,
URL — and everything else directly indexed) are present still makes
normalization raise, because its `labels` connection is JSON null. -/
theorem normalize_raises_with_required_present :
    nullLabelsNode.number = some 1 ∧ nullLabelsNode.url = some "u" ∧
      normalize_pr (some "r") nullLabelsNode = none :=
  ⟨rfl, rfl, rfl⟩
